import Mathlib

/-!
Shallow embedding of the `configtoolkit` library
(`src/configtoolkit/__main__.py`) and proofs about its value-resolution
contract.

Python values are modelled by the inductive type `PyVal`.  Python
operations that can raise are modelled as `Option`-valued (`Option.none`
standing for a raised exception) or `Except`-valued functions.  A mutable
`ConfigValue` method becomes a function returning the post-state together
with the optional raised error.  Scope notes on the Python semantics
modelled here:

* `pyBeq` models Python `==` as structural equality.  Identity-based
  equality of plain objects and the numeric identification of `True`
  with `1` are outside the fragment exercised by the library's claims.
* built-in method attributes of primitive values (such as `list.append`)
  are not modelled by `pyGetattr`; model objects (`pyobj`) carry only
  their data attributes and define no `__getitem__`.
* external parsers (`json.loads`, `yaml.full_load`, `toml.loads`) and the
  filesystem are passed in as explicit parameters, as the spec treats
  them as external collaborators.
-/

/-- Model of the Python values flowing through the library: the scalar
types, strings, lists, dictionaries and plain attribute-bearing objects. -/
inductive PyVal where
  | pynone
  | pybool (b : Bool)
  | pyint (n : Int)
  | pystr (s : String)
  | pylist (xs : List PyVal)
  | pydict (kvs : List (PyVal × PyVal))
  | pyobj (attrs : List (String × PyVal))

/-- Python runtime types, as returned by `type(...)`.  `type` returns the
exact class of a value: in particular `type(True)` is `bool`, not `int`. -/
inductive PyType where
  | noneType
  | boolType
  | intType
  | strType
  | listType
  | dictType
  | objType
deriving DecidableEq

/-- Model of Python `type(value)`. -/
def pytype : PyVal → PyType
  | .pynone => .noneType
  | .pybool _ => .boolType
  | .pyint _ => .intType
  | .pystr _ => .strType
  | .pylist _ => .listType
  | .pydict _ => .dictType
  | .pyobj _ => .objType

mutual

/-- Model of Python `==` on the modelled values: structural equality,
recursing through lists, dictionaries and object attributes. -/
def pyBeq : PyVal → PyVal → Bool
  | .pynone, .pynone => true
  | .pybool a, .pybool b => a == b
  | .pyint a, .pyint b => a == b
  | .pystr a, .pystr b => a == b
  | .pylist xs, .pylist ys => pyListBeq xs ys
  | .pydict xs, .pydict ys => pyPairsBeq xs ys
  | .pyobj xs, .pyobj ys => pyAttrsBeq xs ys
  | _, _ => false

/-- Elementwise `pyBeq` on lists of values. -/
def pyListBeq : List PyVal → List PyVal → Bool
  | [], [] => true
  | x :: xs, y :: ys => pyBeq x y && pyListBeq xs ys
  | _, _ => false

/-- Elementwise `pyBeq` on dictionary entry lists. -/
def pyPairsBeq : List (PyVal × PyVal) → List (PyVal × PyVal) → Bool
  | [], [] => true
  | (k1, v1) :: xs, (k2, v2) :: ys => pyBeq k1 k2 && pyBeq v1 v2 && pyPairsBeq xs ys
  | _, _ => false

/-- Elementwise `pyBeq` on attribute lists. -/
def pyAttrsBeq : List (String × PyVal) → List (String × PyVal) → Bool
  | [], [] => true
  | (k1, v1) :: xs, (k2, v2) :: ys => (k1 == k2) && pyBeq v1 v2 && pyAttrsBeq xs ys
  | _, _ => false

end

/-- Hashability of a value as a dictionary key: lists and dictionaries are
unhashable, every other modelled value can be used as a key. -/
def hashable : PyVal → Bool
  | .pylist _ => false
  | .pydict _ => false
  | _ => true

/-- First-match lookup in a dictionary entry list under Python `==`.
Model dictionaries are assumed to carry distinct keys, as Python
dictionaries do. -/
def lookupDict : List (PyVal × PyVal) → PyVal → Option PyVal
  | [], _ => Option.none
  | (k, v) :: rest, key => if pyBeq k key then some v else lookupDict rest key

/-- First-match lookup in an attribute list. -/
def lookupAttr : List (String × PyVal) → String → Option PyVal
  | [], _ => Option.none
  | (k, v) :: rest, key => if k == key then some v else lookupAttr rest key

/-- Python sequence indexing with negative-index wraparound: `xs[i]` for
`0 ≤ i < len` and `xs[len + i]` for `-len ≤ i < 0`, out of range raising
`IndexError` (modelled by `Option.none`). -/
def listIndex {α : Type} (xs : List α) (i : Int) : Option α :=
  if 0 ≤ i then xs[i.toNat]?
  else
    let j : Int := (xs.length : Int) + i
    if 0 ≤ j then xs[j.toNat]? else Option.none

/-- Model of Python subscription `value[arg]`: dictionary key lookup,
list indexing by an integer, string indexing by an integer (yielding a
one-character string); every other combination raises (`Option.none`). -/
def getItem : PyVal → PyVal → Option PyVal
  | .pydict kvs, k => if hashable k then lookupDict kvs k else Option.none
  | .pylist xs, .pyint i => listIndex xs i
  | .pystr s, .pyint i => (listIndex s.toList i).map fun c => .pystr (String.mk [c])
  | _, _ => Option.none

/-- Whether the value's class defines `__getitem__`: true for the
container types, false for scalars and for the modelled plain objects. -/
def hasGetitem : PyVal → Bool
  | .pylist _ => true
  | .pydict _ => true
  | .pystr _ => true
  | _ => false

/-- Substring test on character lists, modelling Python `t in s` for
strings. -/
def chrIsSubstrOf (needle : List Char) : List Char → Bool
  | [] => needle.isEmpty
  | c :: t => needle.isPrefixOf (c :: t) || chrIsSubstrOf needle t

/-- Model of Python membership `arg in value` on the indexable values:
key membership for dictionaries (raising on unhashable keys), elementwise
`==` search for lists, substring test for strings (raising when the left
operand is not a string).  `Option.none` models a raised `TypeError`. -/
def pyContains : PyVal → PyVal → Option Bool
  | .pydict kvs, k => if hashable k then some (lookupDict kvs k).isSome else Option.none
  | .pylist xs, a => some (xs.any fun x => pyBeq x a)
  | .pystr s, .pystr t => some (chrIsSubstrOf t.toList s.toList)
  | .pystr _, _ => Option.none
  | _, _ => Option.none

/-- Model of Python `getattr(value, arg)`: data-attribute lookup on the
modelled plain objects, raising (`Option.none`) when the attribute is
missing, when the name is not a string, or on any other modelled value
(whose built-in method attributes are out of the modelled scope). -/
def pyGetattr : PyVal → PyVal → Option PyVal
  | .pyobj attrs, .pystr name => lookupAttr attrs name
  | _, _ => Option.none

/-- Container for values coming from config providers: the stored value
and the `exist` flag indicating its presence in the config. -/
structure ConfigValue where
  value : PyVal
  exist : Bool

/-- `ConfigValue.apply_to_value`: applies `function` to the stored value
when `exist` is true.  The Python method mutates `self.value` only after
`function` returns; an exception from `function` is re-raised unless
`ignore_exceptions` is set.  Modelled as the post-state paired with the
optionally raised error. -/
def ConfigValue.apply_to_value {E : Type} (self : ConfigValue)
    (function : PyVal → Except E PyVal) (ignore_exceptions : Bool) :
    ConfigValue × Option E :=
  if self.exist then
    match function self.value with
    | .ok v => ({ self with value := v }, Option.none)
    | .error e => if ignore_exceptions then (self, Option.none) else (self, some e)
  else (self, Option.none)

/-- `not_none_config_value`: convert an incoming value to a `ConfigValue`,
turning `exist` to `False` when the incoming value is `None`. -/
def not_none_config_value (value : PyVal) : ConfigValue :=
  match value with
  | .pynone => ConfigValue.mk PyVal.pynone false
  | v => ConfigValue.mk v true

/-- The `ImpossibleToGetValue` exception raised by `get_config_value`
when no valid value is found. -/
inductive ResolveError where
  | ImpossibleToGetValue
deriving DecidableEq

/-- A candidate passed to `get_config_value`: either a `ConfigValue`
(detected by the `isinstance` check) or any raw value. -/
inductive Candidate where
  | cv (c : ConfigValue)
  | raw (v : PyVal)

/-- The `isinstance(value, ConfigValue)` branch of the scan loop: a
`ConfigValue` with `exist` false is skipped (`Option.none`), otherwise the
inner value is extracted; a raw candidate passes through unchanged. -/
def unwrapCandidate : Candidate → Option PyVal
  | .cv c => if c.exist then some c.value else Option.none
  | .raw v => some v

/-- The `value_type` check of the scan loop: vacuously true when
`value_type` is `None`, otherwise `type(value) == value_type` exactly. -/
def typeOk : Option PyType → PyVal → Bool
  | Option.none, _ => true
  | some t, v => pytype v == t

/-- The scan loop of `get_config_value`: walk the candidates in order,
skipping an absent `ConfigValue`, a type mismatch or a rejected
validation, and return the first surviving value; raise
`ImpossibleToGetValue` when the list is exhausted. -/
def scanValues (value_type : Option PyType) (validator : PyVal → Bool) :
    List Candidate → Except ResolveError PyVal
  | [] => .error .ImpossibleToGetValue
  | c :: rest =>
    match unwrapCandidate c with
    | Option.none => scanValues value_type validator rest
    | some value =>
      if typeOk value_type value then
        if validator value then .ok value
        else scanValues value_type validator rest
      else scanValues value_type validator rest

/-- `get_config_value(values, value_type, validator, **kwargs)`: when a
`default` keyword is supplied it is appended to the caller's `values`
list in place, then the scan loop runs.  Modelled as the final state of
the `values` list paired with the scan outcome. -/
def get_config_value (values : List Candidate) (value_type : Option PyType)
    (validator : PyVal → Bool) (default : Option Candidate) :
    List Candidate × Except ResolveError PyVal :=
  let values :=
    match default with
    | some d => values ++ [d]
    | Option.none => values
  (values, scanValues value_type validator values)

/-- Acceptability of a single candidate, for stating the first-match
property of the scan loop: the unwrapped value when the candidate is
present, type-correct and validated, `Option.none` otherwise. -/
def acceptCandidate (value_type : Option PyType) (validator : PyVal → Bool)
    (c : Candidate) : Option PyVal :=
  match unwrapCandidate c with
  | Option.none => Option.none
  | some value =>
    if typeOk value_type value && validator value then some value else Option.none

/-- `ArgsConfigProvider.get_value_for_key`: scan the argument tokens left
to right; at the first occurrence of `key` return the next token as
present when one exists, otherwise break out and report absence. -/
def ArgsConfigProvider.get_value_for_key : List String → String → ConfigValue
  | [], _ => ConfigValue.mk PyVal.pynone false
  | a :: rest, key =>
    if a == key then
      match rest with
      | [] => ConfigValue.mk PyVal.pynone false
      | b :: _ => ConfigValue.mk (PyVal.pystr b) true
    else ArgsConfigProvider.get_value_for_key rest key

/-- The `try` body of `DictConfigProvider.get`: fold `value = value[arg]`
over the keys; any raised exception (`Option.none` from `getItem`) aborts
the traversal. -/
def dictTraverse : PyVal → List PyVal → Option PyVal
  | value, [] => some value
  | value, k :: rest =>
    match getItem value k with
    | some v => dictTraverse v rest
    | Option.none => Option.none

/-- `DictConfigProvider.get(*keys)`: traverse the backing data by the
keys, wrapping the final value as present; the bare `except` clause turns
any failure into `ConfigValue(None, False)`. -/
def DictConfigProvider.get (data : PyVal) (keys : List PyVal) : ConfigValue :=
  match dictTraverse data keys with
  | some v => ConfigValue.mk v true
  | Option.none => ConfigValue.mk PyVal.pynone false

/-- The `try` body of `PyObjectConfigProvider.get`: at each segment, when
the current value defines `__getitem__` and the segment is `in` it, take
`value[arg]`; otherwise fall through to `getattr(value, arg)`.  Any
raised exception (`Option.none` from a step) aborts the traversal. -/
def pyObjectTraverse : PyVal → List PyVal → Option PyVal
  | value, [] => some value
  | value, arg :: rest =>
    if hasGetitem value then
      match pyContains value arg with
      | Option.none => Option.none
      | some true =>
        match getItem value arg with
        | some v => pyObjectTraverse v rest
        | Option.none => Option.none
      | some false =>
        match pyGetattr value arg with
        | some v => pyObjectTraverse v rest
        | Option.none => Option.none
    else
      match pyGetattr value arg with
      | some v => pyObjectTraverse v rest
      | Option.none => Option.none

/-- `PyObjectConfigProvider.get(*args)`: traverse the backing object by
the segments, wrapping the final value as present; the bare `except`
clause turns any failure into `ConfigValue(None, False)`. -/
def PyObjectConfigProvider.get (pyobject : PyVal) (args : List PyVal) : ConfigValue :=
  match pyObjectTraverse pyobject args with
  | some v => ConfigValue.mk v true
  | Option.none => ConfigValue.mk PyVal.pynone false

/-- One segment step of the object provider as a plain partial function:
container subscription when the value is indexable and the segment is a
member of it, attribute access otherwise. -/
def pyObjStep (value arg : PyVal) : Option PyVal :=
  if hasGetitem value then
    match pyContains value arg with
    | Option.none => Option.none
    | some true => getItem value arg
    | some false => pyGetattr value arg
  else pyGetattr value arg

/-- Decode-error outcome of an external structured-text parser. -/
abbrev DecodeErr : Type := Unit

/-- `JSONConfigProvider.__init__` given the outcome of `json.loads`: the
`data` attribute starts as the empty dict and is replaced by the parse
result; a decode error is re-raised unless `ignore_decode_error`, in
which swallowed case `data` stays the empty dict. -/
def jsonInitData (parsed : Except DecodeErr PyVal) (ignore_decode_error : Bool) :
    Except DecodeErr PyVal :=
  match parsed with
  | .ok v => .ok v
  | .error e => if ignore_decode_error then .ok (PyVal.pydict []) else .error e

/-- `JSONConfigProvider` construction from a JSON string, with the
external parser passed in explicitly. -/
def JSONConfigProvider.initData (parse : String → Except DecodeErr PyVal)
    (json_str : String) (ignore_decode_error : Bool) : Except DecodeErr PyVal :=
  jsonInitData (parse json_str) ignore_decode_error

/-- `TOMLConfigProvider.__init__` given the outcome of `toml.loads`: the
parse happens inside the `super().__init__(...)` call, so on a decode
error the parent constructor never runs and the `data` attribute is never
assigned; a swallowed decode error therefore leaves the provider without
a backing container, modelled as `Option.none`. -/
def tomlInitData (parsed : Except DecodeErr PyVal) (ignore_decode_error : Bool) :
    Except DecodeErr (Option PyVal) :=
  match parsed with
  | .ok v => .ok (some v)
  | .error e => if ignore_decode_error then .ok Option.none else .error e

/-- `YAMLConfigProvider.__init__` given the outcome of `yaml.full_load`:
the constructor takes no error-ignoring flag, so the parse outcome —
including a raised decode error — passes through unchanged. -/
def yamlInitData (parsed : Except DecodeErr PyVal) : Except DecodeErr PyVal :=
  parsed

/-- Errors a file-backed provider constructor can raise. -/
inductive FileInitError where
  | fileNotFound
  | decodeError
  | typeError
deriving DecidableEq

/-- The literal two-character JSON text of an empty object. -/
def emptyJsonText : String := "\x7b\x7d"

/-- `JSONFileConfigProvider.__init__` over an abstract filesystem
(`fs name = some contents` when the file exists).  When the file exists,
the body calls `json.load(file, ignore_decode_error=...)`, an unexpected
keyword argument that raises an uncaught `TypeError`.  When the file is
missing, the `FileNotFoundError` handler first constructs the provider
from the literal empty-object string via `super().__init__` (with the
parent's default `ignore_decode_error=False`) and then re-raises the
file error unless `ignore_file_reading_error` is set. -/
def JSONFileConfigProvider.initData (fs : String → Option String)
    (parse : String → Except DecodeErr PyVal) (file_name : String)
    (ignore_decode_error ignore_file_reading_error : Bool) :
    Except FileInitError PyVal :=
  match fs file_name with
  | some _ => .error .typeError
  | Option.none =>
    match JSONConfigProvider.initData parse emptyJsonText false with
    | .error _ => .error .decodeError
    | .ok v => if ignore_file_reading_error then .ok v else .error .fileNotFound

/-- The nested dictionary used by the spec's dictionary-provider
examples. -/
def exDict : PyVal :=
  PyVal.pydict [(PyVal.pystr "a", PyVal.pydict [(PyVal.pystr "b", PyVal.pyint 5)])]

/-- An attribute-bearing object whose attribute holds a dictionary, used
to exercise the object provider's attribute fallback. -/
def exObj : PyVal :=
  PyVal.pyobj [("a", PyVal.pydict [(PyVal.pystr "b", PyVal.pyint 5)])]

/-- Claim C3: `apply_to_value` is a no-op when `exist` is false; when
`exist` is true and the function raises, with `ignore_exceptions=true`
the error is swallowed and the state is exactly as before the call, and
with `ignore_exceptions=false` the error is propagated with the object
left in its pre-call state (no partial application of the failed
replacement). -/
theorem apply_to_value_error_semantics (E : Type) (c : ConfigValue)
    (f : PyVal → Except E PyVal) (ig : Bool) :
    (c.exist = false → c.apply_to_value f ig = (c, Option.none))
    ∧ (∀ e : E, c.exist = true → f c.value = .error e →
        (ig = true → c.apply_to_value f ig = (c, Option.none))
        ∧ (ig = false → c.apply_to_value f ig = (c, some e))) := by
  constructor
  · intro h
    simp [ConfigValue.apply_to_value, h]
  · intro e hex herr
    constructor <;> intro hig <;> simp [ConfigValue.apply_to_value, hex, herr, hig]

/-- Concrete instance of `apply_to_value_error_semantics`: an absent
value is untouched, and a raising function leaves a present value's state
unchanged whether or not the error is swallowed. -/
theorem apply_to_value_error_semantics_witness :
    (ConfigValue.mk (PyVal.pyint 1) false).apply_to_value
      (fun _ => (Except.error () : Except Unit PyVal)) false
      = (ConfigValue.mk (PyVal.pyint 1) false, Option.none)
    ∧ (ConfigValue.mk (PyVal.pyint 1) true).apply_to_value
      (fun _ => (Except.error () : Except Unit PyVal)) true
      = (ConfigValue.mk (PyVal.pyint 1) true, Option.none)
    ∧ (ConfigValue.mk (PyVal.pyint 1) true).apply_to_value
      (fun _ => (Except.error () : Except Unit PyVal)) false
      = (ConfigValue.mk (PyVal.pyint 1) true, some ()) :=
  ⟨(apply_to_value_error_semantics Unit (ConfigValue.mk (PyVal.pyint 1) false)
      (fun _ => Except.error ()) false).1 rfl,
   ((apply_to_value_error_semantics Unit (ConfigValue.mk (PyVal.pyint 1) true)
      (fun _ => Except.error ()) true).2 () rfl rfl).1 rfl,
   ((apply_to_value_error_semantics Unit (ConfigValue.mk (PyVal.pyint 1) true)
      (fun _ => Except.error ()) false).2 () rfl rfl).2 rfl⟩

/-- Claim C4 fails as stated: `ConfigValue(None, True)` is a present
value — and is reachable, e.g. from a dictionary provider over a mapping
whose entry holds `None` — yet re-wrapping its inner value yields an
absent result. -/
theorem not_none_config_value_counterexample :
    (ConfigValue.mk PyVal.pynone true).exist = true
    ∧ (not_none_config_value (ConfigValue.mk PyVal.pynone true).value).exist = false
    ∧ DictConfigProvider.get (PyVal.pydict [(PyVal.pystr "a", PyVal.pynone)])
        [PyVal.pystr "a"] = ConfigValue.mk PyVal.pynone true := by
  refine ⟨rfl, rfl, ?_⟩
  simp [DictConfigProvider.get, dictTraverse, getItem, lookupDict, pyBeq, hashable]

/-- Claim C4, amended: `not_none_config_value` is a pure total function
with `wrap(None).exist = false`, and re-wrapping the inner value of a
present `ConfigValue` yields a present result whenever that inner value
is not `None`. -/
theorem not_none_config_value_amended :
    (not_none_config_value PyVal.pynone).exist = false
    ∧ (∀ v : PyVal, v ≠ PyVal.pynone → not_none_config_value v = ConfigValue.mk v true) := by
  refine ⟨rfl, ?_⟩
  intro v h
  cases v
  · exact absurd rfl h
  all_goals rfl

/-- Concrete instance of `not_none_config_value_amended` at the non-null
value `3`. -/
theorem not_none_config_value_amended_witness :
    (PyVal.pyint 3 ≠ PyVal.pynone)
    ∧ not_none_config_value (PyVal.pyint 3) = ConfigValue.mk (PyVal.pyint 3) true :=
  ⟨(fun h => nomatch h), not_none_config_value_amended.2 (PyVal.pyint 3) (fun h => nomatch h)⟩

/-- Claim C10: with a `default` keyword the caller's list is extended in
place by exactly the default as new last element; without one it is left
unchanged. -/
theorem get_config_value_appends_default :
    ∀ (values : List Candidate) (vt : Option PyType) (validator : PyVal → Bool)
      (d : Candidate),
      (get_config_value values vt validator (some d)).1 = values ++ [d]
      ∧ ((get_config_value values vt validator (some d)).1).length = values.length + 1
      ∧ ((get_config_value values vt validator (some d)).1).getLast? = some d
      ∧ (get_config_value values vt validator Option.none).1 = values := by
  intro values vt validator d
  refine ⟨rfl, ?_, ?_, rfl⟩
  · simp [get_config_value]
  · simp [get_config_value]

/-- Claim C6 fails as stated: for the TOML string provider, a swallowed
decode error does not leave an empty backing container — the `data`
attribute is never assigned at all (the parse failure aborts the
`super().__init__` call). -/
theorem toml_swallowed_decode_counterexample :
    tomlInitData (Except.error ()) true = Except.ok Option.none
    ∧ (Except.ok Option.none : Except DecodeErr (Option PyVal))
        ≠ Except.ok (some (PyVal.pydict [])) := by
  refine ⟨rfl, ?_⟩
  intro h
  simp at h

/-- Claim C6, amended: the JSON string provider propagates a decode
failure by default and, with `ignore_decode_error=true`, swallows it
leaving the empty dict as backing container; the TOML string provider
likewise propagates by default and swallows with its flag, but the
swallowed case leaves the backing attribute unset rather than empty; the
YAML string provider has no ignore flag, so the parse outcome — including
a decode failure — is always passed through. -/
theorem string_provider_decode_error_handling :
    (∀ (v : PyVal) (ig : Bool), jsonInitData (Except.ok v) ig = Except.ok v)
    ∧ (∀ e : DecodeErr, jsonInitData (Except.error e) false = Except.error e)
    ∧ (∀ e : DecodeErr, jsonInitData (Except.error e) true = Except.ok (PyVal.pydict []))
    ∧ (∀ (v : PyVal) (ig : Bool), tomlInitData (Except.ok v) ig = Except.ok (some v))
    ∧ (∀ e : DecodeErr, tomlInitData (Except.error e) false = Except.error e)
    ∧ (∀ e : DecodeErr, tomlInitData (Except.error e) true = Except.ok Option.none)
    ∧ (∀ r : Except DecodeErr PyVal, yamlInitData r = r) := by
  refine ⟨fun v ig => rfl, fun e => rfl, fun e => rfl, fun v ig => rfl,
    fun e => rfl, fun e => rfl, fun r => rfl⟩

/-- The scan loop returns exactly the first acceptable candidate of the
list, and raises when none is acceptable. -/
theorem scanValues_eq_findSome (vt : Option PyType) (validator : PyVal → Bool) :
    ∀ l : List Candidate,
      scanValues vt validator l =
        match l.findSome? (acceptCandidate vt validator) with
        | some v => Except.ok v
        | Option.none => Except.error ResolveError.ImpossibleToGetValue := by
  intro l
  induction l with
  | nil => rfl
  | cons c rest ih =>
    rw [List.findSome?_cons]
    cases hu : unwrapCandidate c with
    | none =>
      have ha : acceptCandidate vt validator c = Option.none := by
        simp [acceptCandidate, hu]
      rw [ha]
      simp only [scanValues, hu]
      exact ih
    | some value =>
      by_cases h1 : typeOk vt value = true
      · by_cases h2 : validator value = true
        · have ha : acceptCandidate vt validator c = some value := by
            simp [acceptCandidate, hu, h1, h2]
          rw [ha]
          simp only [scanValues, hu, h1, h2, if_true]
        · have ha : acceptCandidate vt validator c = Option.none := by
            simp [acceptCandidate, hu, h1, h2]
          rw [ha]
          simp only [scanValues, hu, h1, h2, if_true, if_false]
          exact ih
      · have ha : acceptCandidate vt validator c = Option.none := by
          simp [acceptCandidate, hu, h1]
        rw [ha]
        simp only [scanValues, hu, h1, if_false]
        exact ih

/-- Claim C1: `get_config_value` returns the first acceptable candidate
of the effective list (absent `ConfigValue`s skipped and present ones
unwrapped, the type check and validator applied) and raises
`ImpossibleToGetValue` when none is acceptable; a supplied default is the
last element of the effective list, so resolution over `[]` with default
`3` yields `3` while over `[]` with no default it raises. -/
theorem get_config_value_first_acceptable :
    (∀ (values : List Candidate) (vt : Option PyType) (validator : PyVal → Bool)
       (default : Option Candidate),
       (get_config_value values vt validator default).2 =
         match ((get_config_value values vt validator default).1).findSome?
             (acceptCandidate vt validator) with
         | some v => Except.ok v
         | Option.none => Except.error ResolveError.ImpossibleToGetValue)
    ∧ get_config_value [] Option.none (fun _ => true)
        (some (Candidate.raw (PyVal.pyint 3)))
        = ([Candidate.raw (PyVal.pyint 3)], Except.ok (PyVal.pyint 3))
    ∧ (get_config_value [] Option.none (fun _ => true) Option.none).2
        = Except.error ResolveError.ImpossibleToGetValue := by
  refine ⟨?_, rfl, rfl⟩
  intro values vt validator default
  exact scanValues_eq_findSome vt validator _

/-- Any value the scan loop returns under an exact expected type has
exactly that runtime type. -/
theorem scanValues_ok_type (t : PyType) (validator : PyVal → Bool) :
    ∀ (l : List Candidate) (v : PyVal),
      scanValues (some t) validator l = Except.ok v → pytype v = t := by
  intro l
  induction l with
  | nil =>
    intro v h
    exact absurd h (by simp [scanValues])
  | cons c rest ih =>
    intro v h
    cases hu : unwrapCandidate c with
    | none =>
      simp only [scanValues, hu] at h
      exact ih v h
    | some value =>
      simp only [scanValues, hu] at h
      by_cases h1 : typeOk (some t) value = true
      · by_cases h2 : validator value = true
        · simp only [h1, h2, if_true] at h
          injection h with hv
          subst hv
          exact eq_of_beq h1
        · simp only [h1, h2, if_true, if_false] at h
          exact ih v h
      · simp only [h1, if_false] at h
        exact ih v h

/-- Claim C2: under an expected type, every accepted value has exactly
that runtime type — in particular a boolean is never returned when the
integer type is expected — and the spec's resolution-order example
returns `5`. -/
theorem get_config_value_exact_type :
    (∀ (values : List Candidate) (t : PyType) (validator : PyVal → Bool)
       (default : Option Candidate),
       match (get_config_value values (some t) validator default).2 with
       | Except.ok v => pytype v = t
       | Except.error _ => True)
    ∧ (∀ (values : List Candidate) (validator : PyVal → Bool)
       (default : Option Candidate) (b : Bool),
       (get_config_value values (some PyType.intType) validator default).2
         ≠ Except.ok (PyVal.pybool b))
    ∧ (get_config_value
        [Candidate.cv (ConfigValue.mk PyVal.pynone false),
         Candidate.cv (not_none_config_value PyVal.pynone),
         Candidate.raw (PyVal.pyint 5), Candidate.raw (PyVal.pyint 7)]
        (some PyType.intType) (fun _ => true) Option.none).2
        = Except.ok (PyVal.pyint 5) := by
  refine ⟨?_, ?_, rfl⟩
  · intro values t validator default
    cases hres : (get_config_value values (some t) validator default).2 with
    | ok v => exact scanValues_ok_type t validator _ v hres
    | error e => trivial
  · intro values validator default b h
    have hb := scanValues_ok_type PyType.intType validator _ (PyVal.pybool b) h
    exact absurd hb (by simp [pytype])

/-- The dictionary traversal loop is the monadic fold of single-step
subscription over the keys. -/
theorem dictTraverse_eq_foldlM :
    ∀ (keys : List PyVal) (data : PyVal),
      dictTraverse data keys = keys.foldlM getItem data := by
  intro keys
  induction keys with
  | nil => intro data; rfl
  | cons k rest ih =>
    intro data
    rw [List.foldlM_cons]
    cases hg : getItem data k with
    | none => simp [dictTraverse, hg]
    | some v => simp [dictTraverse, hg, ih v]

/-- Claim C5: the dictionary provider consumes the key path left to
right from the root; it returns the final value as present when every
subscription succeeds and an absent value when any step fails (no error
ever escapes); the empty path yields the root as present.  Includes the
spec's three examples over the mapping with nested entry 5. -/
theorem dict_provider_get_contract :
    (∀ (data : PyVal) (keys : List PyVal),
       DictConfigProvider.get data keys =
         match keys.foldlM getItem data with
         | some v => ConfigValue.mk v true
         | Option.none => ConfigValue.mk PyVal.pynone false)
    ∧ (∀ data : PyVal, DictConfigProvider.get data [] = ConfigValue.mk data true)
    ∧ DictConfigProvider.get exDict [PyVal.pystr "a", PyVal.pystr "b"]
        = ConfigValue.mk (PyVal.pyint 5) true
    ∧ DictConfigProvider.get exDict [PyVal.pystr "a", PyVal.pystr "x"]
        = ConfigValue.mk PyVal.pynone false
    ∧ DictConfigProvider.get exDict [] = ConfigValue.mk exDict true := by
  refine ⟨?_, fun data => rfl, ?_, ?_, rfl⟩
  · intro data keys
    rw [← dictTraverse_eq_foldlM keys data]
    rfl
  · simp [DictConfigProvider.get, dictTraverse, getItem, lookupDict, pyBeq,
      hashable, exDict]
  · simp [DictConfigProvider.get, dictTraverse, getItem, lookupDict, pyBeq,
      hashable, exDict]

/-- The argument scan returns the token after the first occurrence of
the key, when that occurrence has a successor. -/
theorem get_value_for_key_eq_findIdx (key : String) :
    ∀ args : List String,
      ArgsConfigProvider.get_value_for_key args key =
        match args.findIdx? (fun a => a == key) with
        | some i =>
          match args[i+1]? with
          | some b => ConfigValue.mk (PyVal.pystr b) true
          | Option.none => ConfigValue.mk PyVal.pynone false
        | Option.none => ConfigValue.mk PyVal.pynone false := by
  intro args
  induction args with
  | nil => rfl
  | cons x l ih =>
    simp only [ArgsConfigProvider.get_value_for_key, List.findIdx?_cons]
    by_cases h : (x == key) = true
    · rw [if_pos h, if_pos h]
      cases l with
      | nil => simp
      | cons b t => simp
    · rw [if_neg h, if_neg h, ih, List.findIdx?_succ]
      cases hf : List.findIdx? (fun a => a == key) l with
      | none => rfl
      | some i => simp [List.getElem?_cons_succ]

/-- Claim C7: the argument-list provider scans the tokens left to right
and, at the first occurrence of the key that is not the last token,
returns the next token as present; a key occurring only as the last
token, or not at all, yields an absent value.  Includes the spec's two
examples. -/
theorem args_get_value_for_key_contract :
    (∀ (args : List String) (key : String),
       ArgsConfigProvider.get_value_for_key args key =
         match args.findIdx? (fun a => a == key) with
         | some i =>
           match args[i+1]? with
           | some b => ConfigValue.mk (PyVal.pystr b) true
           | Option.none => ConfigValue.mk PyVal.pynone false
         | Option.none => ConfigValue.mk PyVal.pynone false)
    ∧ ArgsConfigProvider.get_value_for_key ["--port", "8080"] "--port"
        = ConfigValue.mk (PyVal.pystr "8080") true
    ∧ ArgsConfigProvider.get_value_for_key ["x", "--port"] "--port"
        = ConfigValue.mk PyVal.pynone false := by
  refine ⟨fun args key => get_value_for_key_eq_findIdx key args, ?_, ?_⟩
  · simp [ArgsConfigProvider.get_value_for_key]
  · simp [ArgsConfigProvider.get_value_for_key]

/-- The object traversal loop is the monadic fold of the two-phase
membership-then-attribute step over the segments. -/
theorem pyObjectTraverse_eq_foldlM :
    ∀ (args : List PyVal) (root : PyVal),
      pyObjectTraverse root args = args.foldlM pyObjStep root := by
  intro args
  induction args with
  | nil => intro root; rfl
  | cons arg rest ih =>
    intro root
    rw [List.foldlM_cons]
    by_cases h : hasGetitem root = true
    · simp only [pyObjectTraverse, pyObjStep, h, if_true]
      cases hc : pyContains root arg with
      | none => simp
      | some b =>
        cases b with
        | false => cases hg : pyGetattr root arg <;> simp [hg, ih]
        | true => cases hg : getItem root arg <;> simp [hg, ih]
    · simp only [pyObjectTraverse, pyObjStep, h, if_false]
      cases hg : pyGetattr root arg <;> simp [hg, ih]

/-- Claim C9 fails as stated: over the backing list `[10, 20]`, the
segment `1` is a valid sequence index (subscription itself would return
`20`), yet `get(1)` is absent — the container phase requires the segment
to be a member of the container, and membership of `1` in `[10, 20]`
fails, so lookup falls through to attribute access and the whole
traversal fails. -/
theorem pyobject_get_list_index_counterexample :
    PyObjectConfigProvider.get (PyVal.pylist [PyVal.pyint 10, PyVal.pyint 20])
      [PyVal.pyint 1] = ConfigValue.mk PyVal.pynone false
    ∧ getItem (PyVal.pylist [PyVal.pyint 10, PyVal.pyint 20]) (PyVal.pyint 1)
      = some (PyVal.pyint 20) := by
  constructor
  · simp [PyObjectConfigProvider.get, pyObjectTraverse, hasGetitem, pyContains,
      pyBeq, pyGetattr]
  · rfl

/-- Claim C9, amended: the object provider resolves each segment by
first testing whether the current value supports container indexing and
the segment is a member of it (`in`), in which case the value is
subscripted by the segment; otherwise it falls back to named attribute
access; the final value is present when every segment resolves,
otherwise the result is absent.  Includes an attribute-then-key
example. -/
theorem pyobject_get_contract :
    (∀ (pyobject : PyVal) (args : List PyVal),
       PyObjectConfigProvider.get pyobject args =
         match args.foldlM pyObjStep pyobject with
         | some v => ConfigValue.mk v true
         | Option.none => ConfigValue.mk PyVal.pynone false)
    ∧ PyObjectConfigProvider.get exObj [PyVal.pystr "a", PyVal.pystr "b"]
        = ConfigValue.mk (PyVal.pyint 5) true := by
  constructor
  · intro pyobject args
    rw [← pyObjectTraverse_eq_foldlM args pyobject]
    rfl
  · simp [PyObjectConfigProvider.get, pyObjectTraverse, hasGetitem, pyContains,
      pyGetattr, lookupAttr, getItem, lookupDict, pyBeq, hashable, exObj]

/-- Claim C8: a file-backed JSON provider with
`ignore_file_reading_error=true` over a missing file carries the same
backing container as a JSON string provider over the literal
empty-object text, so every lookup agrees between the two. -/
theorem json_file_provider_missing_file_equiv :
    ∀ (fs : String → Option String) (parse : String → Except DecodeErr PyVal)
      (file_name : String) (ignore_decode_error : Bool),
      fs file_name = Option.none →
      parse emptyJsonText = Except.ok (PyVal.pydict []) →
      JSONFileConfigProvider.initData fs parse file_name ignore_decode_error true
          = Except.ok (PyVal.pydict [])
      ∧ JSONConfigProvider.initData parse emptyJsonText false
          = Except.ok (PyVal.pydict [])
      ∧ (∀ keys : List PyVal,
          (JSONFileConfigProvider.initData fs parse file_name
              ignore_decode_error true).toOption.map
              (fun d => DictConfigProvider.get d keys)
            = (JSONConfigProvider.initData parse emptyJsonText
                false).toOption.map (fun d => DictConfigProvider.get d keys)) := by
  intro fs parse file_name ignore_decode_error hfs hparse
  have hstr : JSONConfigProvider.initData parse emptyJsonText false
      = Except.ok (PyVal.pydict []) := by
    simp [JSONConfigProvider.initData, jsonInitData, hparse]
  have hfile : JSONFileConfigProvider.initData fs parse file_name
      ignore_decode_error true = Except.ok (PyVal.pydict []) := by
    simp [JSONFileConfigProvider.initData, hfs, hstr]
  refine ⟨hfile, hstr, ?_⟩
  intro keys
  rw [hfile, hstr]
  rfl

/-- Concrete instance of `json_file_provider_missing_file_equiv`: an
empty filesystem and a parser sending the empty-object text to the empty
dict. -/
theorem json_file_provider_missing_file_equiv_witness :
    ((fun _ : String => (Option.none : Option String)) "local_config.json"
      = Option.none)
    ∧ ((fun _ : String => (Except.ok (PyVal.pydict []) : Except DecodeErr PyVal))
        emptyJsonText = Except.ok (PyVal.pydict []))
    ∧ JSONFileConfigProvider.initData (fun _ => Option.none)
        (fun _ => Except.ok (PyVal.pydict [])) "local_config.json" false true
        = Except.ok (PyVal.pydict []) :=
  ⟨rfl, rfl,
    (json_file_provider_missing_file_equiv (fun _ => Option.none)
      (fun _ => Except.ok (PyVal.pydict [])) "local_config.json" false rfl rfl).1⟩

/-- Concrete instance of `get_config_value_exact_type`: a lone boolean
candidate is not returned when the integer type is expected. -/
theorem get_config_value_exact_type_witness :
    (get_config_value [Candidate.raw (PyVal.pybool true)] (some PyType.intType)
      (fun _ => true) Option.none).2 ≠ Except.ok (PyVal.pybool true) :=
  get_config_value_exact_type.2.1 [Candidate.raw (PyVal.pybool true)]
    (fun _ => true) Option.none true
